import Mathlib

/-!
Verification of the flight-search aggregator server.

The development shallowly embeds the helper functions, the offer-processing
pipeline and the datepair price scanner of the server source file
(`src/unnamed/part_000`), together with the relevant pieces of the HTTP
route handlers, and proves or refutes the frozen behavioural claims about
them.  JavaScript strings are modelled as Lean `String`/`List Char`,
JavaScript objects used as string-keyed maps are modelled as
insertion-ordered association lists, promises are modelled with `Except`
(rejection channel) plus explicit settlement traces for the concurrent
fan-out, and machine numerics that the claims do not depend on
(`parseFloat`, `Intl.NumberFormat` output) are carried as opaque payload
values produced by the upstream outcome.
-/

/-! ### JavaScript string primitives -/

/-- First index at which the (non-empty) separator `sep` occurs as a
contiguous sublist of `s`; `none` when it does not occur.  This is the
search that `String.prototype.split` performs repeatedly. -/
def firstOccur (sep : List Char) : List Char → Option Nat
  | [] => none
  | c :: rest =>
    if sep.isPrefixOf (c :: rest) then some 0
    else (firstOccur sep rest).map (· + 1)

/-- Core of `String.prototype.split` for a non-empty separator: cut at the
leftmost occurrence of `sep`, drop the separator, and continue on the
remainder (non-overlapping, left-to-right, exactly as the JS engine
scans). -/
def jsSplitCore (sep : List Char) (s : List Char) : List (List Char) :=
  if hsep : sep = [] then [s]
  else
    match h : firstOccur sep s with
    | none => [s]
    | some i => s.take i :: jsSplitCore sep (s.drop (i + sep.length))
termination_by s.length
decreasing_by
  simp only [List.length_drop]
  have h1 : 0 < s.length := by
    cases s with
    | nil => simp [firstOccur] at h
    | cons c rest => simp
  have h2 : 0 < sep.length := List.length_pos.mpr hsep
  omega

/-- Model of JavaScript `str.split(sep)`.  For the empty separator JS
splits into single characters; all call sites in the source use the
non-empty separators `"PT"`, `"H"` and `"M"`. -/
def jsSplit (sep : List Char) (s : List Char) : List (List Char) :=
  if sep = [] then s.map (fun c => [c]) else jsSplitCore sep s

/-- Model of JavaScript `str.split(regex)` for a single-character class
such as `/[ -]/`: cut at every character satisfying `p`, keeping empty
tokens between adjacent separators. -/
def splitPred (p : Char → Bool) : List Char → List (List Char)
  | [] => [[]]
  | c :: rest =>
    match splitPred p rest with
    | [] => [[c]]
    | w :: ws => if p c then [] :: w :: ws else (c :: w) :: ws

/-- Model of `word.charAt(0).toUpperCase() + word.slice(1).toLowerCase()`
for ASCII words (an empty word maps to the empty word, as in JS where
`"".charAt(0)` is `""`). -/
def jsWordCap (w : List Char) : List Char :=
  match w with
  | [] => []
  | c :: rest => c.toUpper :: rest.map Char.toLower

/-- Model of `arr.join(" ")`. -/
def joinSpace : List (List Char) → List Char
  | [] => []
  | [w] => w
  | w :: ws => w ++ ' ' :: joinSpace ws

/-- Character class of the regex `/[ -]/` used by `formatString`. -/
def isSepChar (c : Char) : Bool := c = ' ' || c = '-'

/-- Embedding of `formatString` (source lines 119-124): split on spaces
and hyphens, capitalize the first letter of each token and lowercase the
rest, rejoin with spaces.  The spec refers to this helper as
`formatTitleCase`. -/
def formatString (str : String) : String :=
  ⟨joinSpace ((splitPred isSepChar str.data).map jsWordCap)⟩

/-- Embedding of `formatDuration` (source lines 132-150).  `hasHours` and
`hasMinutes` are `str.includes("H")` / `str.includes("M")`; the component
texts are extracted with `split` exactly as in the source.  Where JS would
throw on an input without a `"PT"` prefix (indexing `[1]` of a one-element
split result yields `undefined`), the model totalises with the empty
string; every theorem below stays inside the `PT...` shapes where the two
agree. -/
def formatDurationL (s : List Char) : List Char :=
  let hasHours := s.contains 'H'
  let hasMinutes := s.contains 'M'
  let afterPT := (jsSplit ['P', 'T'] s).getD 1 []
  let durationHours := if hasHours then (jsSplit ['H'] afterPT).getD 0 [] else ['0']
  if hasHours && hasMinutes then
    let durationMinutes :=
      (jsSplit ['M'] ((jsSplit ['H'] afterPT).getD 1 [])).getD 0 []
    durationHours ++ (" h ".data ++ (durationMinutes ++ " min".data))
  else if hasMinutes then
    let durationMinutes := (jsSplit ['M'] afterPT).getD 0 []
    durationMinutes ++ " min".data
  else
    durationHours ++ " h".data

/-- String-level wrapper of `formatDurationL`. -/
def formatDuration (str : String) : String :=
  ⟨formatDurationL str.data⟩

/-! ### The outbound-itinerary comparison -/

/-- The per-segment display record built by the offer-processing loop, cut
down to the two fields that `sameOutbound` reads (`carrierCode`,
`carrierName`); the remaining display fields of `segmentData` play no role
in the comparison. -/
structure SegView where
  carrierCode : String
  carrierName : String
deriving DecidableEq

/-- The per-itinerary display record (`itineraryData`), cut down to its
segment list. -/
structure ItinView where
  segments : List SegView
deriving DecidableEq

/-- Embedding of `sameOutbound` (source lines 152-157): reject on
different segment counts, otherwise test that every
`carrierCode + carrierName` concatenation of the first itinerary occurs
somewhere in the second itinerary's list. -/
def sameOutbound (it1 it2 : ItinView) : Bool :=
  if it1.segments.length != it2.segments.length then false
  else
    let it1Flights := it1.segments.map (fun seg => seg.carrierCode ++ seg.carrierName)
    let it2Flights := it2.segments.map (fun seg => seg.carrierCode ++ seg.carrierName)
    it1Flights.all (fun flight => it2Flights.contains flight)

/-! ### Calendar dates

`generateCalendarDatepairs` parses its two arguments with `new Date(...)`,
shifts them with date-fns `addDays`, and prints them back with date-fns
`format(..., "yyyy-MM-dd")`.  The model represents a parsed calendar date
by its day number in the proleptic Gregorian calendar (days since
0000-03-01, the standard civil-date algorithms), so that `addDays` is
integer addition and formatting is the inverse civil conversion. -/

/-- Gregorian leap-year test. -/
def isLeapYear (y : Nat) : Bool :=
  y % 4 = 0 && (y % 100 != 0 || y % 400 = 0)

/-- Number of days in month `m` (1-12) of year `y`. -/
def daysInMonth (y m : Nat) : Nat :=
  if m = 2 then (if isLeapYear y then 29 else 28)
  else if m = 4 || m = 6 || m = 9 || m = 11 then 30
  else 31

/-- Day number (days since 0000-03-01) of the civil date `y-m-d`. -/
def daysFromCivil (y m d : Nat) : Nat :=
  let yAdj := if m ≤ 2 then y - 1 else y
  let era := yAdj / 400
  let yoe := yAdj % 400
  let mp := (m + 9) % 12
  let doy := (153 * mp + 2) / 5 + d - 1
  let doe := yoe * 365 + yoe / 4 - yoe / 100 + doy
  era * 146097 + doe

/-- Civil date `(y, m, d)` of a day number (inverse of `daysFromCivil`). -/
def civilFromDays (n : Nat) : Nat × Nat × Nat :=
  let era := n / 146097
  let doe := n % 146097
  let yoe := (doe - doe / 1460 + doe / 36524 - doe / 146096) / 365
  let yAdj := yoe + era * 400
  let doy := doe - (365 * yoe + yoe / 4 - yoe / 100)
  let mp := (5 * doy + 2) / 153
  let d := doy - (153 * mp + 2) / 5 + 1
  let m := if mp < 10 then mp + 3 else mp - 9
  (if m ≤ 2 then yAdj + 1 else yAdj, m, d)

/-- Numeric value of a decimal digit character. -/
def digitVal (c : Char) : Option Nat :=
  if c.isDigit then some (c.toNat - 48) else none

/-- Parse a `yyyy-MM-dd` string into a civil date, validating month and
day ranges; this is the shape (and the validation) that `new Date(...)`
applies to ISO date-only strings — anything else yields an Invalid Date,
on which date-fns `format` throws, so the model returns `none`. -/
def parseYmd (s : String) : Option (Nat × Nat × Nat) :=
  match s.data with
  | [y1, y2, y3, y4, '-', m1, m2, '-', d1, d2] => do
    let a ← digitVal y1
    let b ← digitVal y2
    let c ← digitVal y3
    let d ← digitVal y4
    let e ← digitVal m1
    let f ← digitVal m2
    let g ← digitVal d1
    let h ← digitVal d2
    let y := ((a * 10 + b) * 10 + c) * 10 + d
    let m := e * 10 + f
    let day := g * 10 + h
    if 1 ≤ m ∧ m ≤ 12 ∧ 1 ≤ day ∧ day ≤ daysInMonth y m then
      some (y, m, day)
    else none
  | _ => none

/-- Left-pad a numeral to two digits (format token `MM` / `dd`). -/
def pad2 (n : Nat) : String :=
  if n < 10 then "0" ++ toString n else toString n

/-- Left-pad a numeral to four digits (format token `yyyy`). -/
def pad4 (n : Nat) : String :=
  if n < 10 then "000" ++ toString n
  else if n < 100 then "00" ++ toString n
  else if n < 1000 then "0" ++ toString n
  else toString n

/-- Format a day number as `yyyy-MM-dd` (date-fns `format`). -/
def formatDayNumber (n : Nat) : String :=
  let ymd := civilFromDays n
  pad4 ymd.1 ++ "-" ++ pad2 ymd.2.1 ++ "-" ++ pad2 ymd.2.2

/-- date-fns `addDays` followed by `format(..., "yyyy-MM-dd")` on a parsed
pivot date: shift the pivot's day number by `i` and print it.  (`Int.toNat`
only truncates for dates in the first three days after 0000-03-01, which
no `yyyy-MM-dd` pivot shifted by at most three days can reach except the
year-zero corner, far outside the scanner's use.) -/
def addDaysFormat (base : Nat × Nat × Nat) (i : Int) : String :=
  formatDayNumber ((daysFromCivil base.1 base.2.1 base.2.2 : Int) + i).toNat

/-- The day offsets of the two `for (let i = -3; i <= 3; i++)` loops. -/
def offsets : List Int := [-3, -2, -1, 0, 1, 2, 3]

/-- Embedding of `generateCalendarDatepairs` (source lines 159-173): the
nested offset loops push `format(addDays(departure, i)) + ">" +
format(addDays(return, j))` for every `i`, `j` in `-3..3`; `none` models
the `format` throw on an unparseable pivot date. -/
def generateCalendarDatepairs (departureDate returnDate : String) :
    Option (List String) :=
  match parseYmd departureDate, parseYmd returnDate with
  | some dep, some ret =>
    some ((offsets.map (fun i =>
      offsets.map (fun j =>
        addDaysFormat dep i ++ ">" ++ addDaysFormat ret j))).flatten)
  | _, _ => none

/-! ### The offer-processing pipeline of GET /get-flight-offers -/

/-- The kinds of JavaScript error values that flow through the
`getFlightOffers` promise chain: an upstream rejection from the Amadeus
client (non-2xx or transport failure), a `SyntaxError` from
`JSON.parse`, a `TypeError` from reading a property of `undefined`, and a
`ReferenceError` from reading an undeclared identifier. -/
inductive JsError where
  | upstream (status : Nat) (body : String)
  | syntaxError (msg : String)
  | typeError (msg : String)
  | referenceError (msg : String)
deriving DecidableEq

/-- Raw upstream price object (`offer.price`). -/
structure RawPrice where
  currency : String
  total : String
deriving DecidableEq

/-- Raw departure/arrival record of a segment (the source field `at`
holding the timestamp is renamed `atTime`: `at` is a Lean keyword). -/
structure RawEndpoint where
  iataCode : String
  atTime : String
deriving DecidableEq

/-- Raw upstream flight segment. -/
structure RawSegment where
  departure : RawEndpoint
  arrival : RawEndpoint
  carrierCode : String
  operatingCarrierCode : Option String
  number : String
  aircraftCode : String
  id : String
  duration : String
deriving DecidableEq

/-- Raw upstream itinerary. -/
structure RawItinerary where
  duration : String
  segments : List RawSegment
deriving DecidableEq

/-- Raw upstream flight offer. -/
structure RawOffer where
  id : String
  price : RawPrice
  validatingAirlineCodes : List String
  itineraries : List RawItinerary
deriving DecidableEq

/-- The `dictionaries` block of the upstream response. -/
structure Dictionaries where
  carriers : List (String × String)
  aircraft : List (String × String)
deriving DecidableEq

/-- Parsed upstream flight-offers response body. -/
structure FlightResponse where
  data : List RawOffer
  dictionaries : Dictionaries
deriving DecidableEq

/-- The aggregated presentation offer (`offerData`) that the processing
loop is meant to build: formatted price, validating airline, one outbound
itinerary view and the merged inbound views. -/
structure Offer where
  priceFrom : String
  validatingAirline : String
  outbound : ItinView
  inbounds : List ItinView
deriving DecidableEq

/-- The raw HTTP body handed to the `.then` callback: either a string that
`JSON.parse` rejects or one that parses to a `FlightResponse`. -/
inductive RawBody where
  | malformed (text : String)
  | parsed (resp : FlightResponse)
deriving DecidableEq

/-- Model of `JSON.parse(res.body)` (source line 221). -/
def jsonParse : RawBody → Except JsError FlightResponse
  | .malformed text => .error (.syntaxError ("Unexpected token in JSON: " ++ text))
  | .parsed resp => .ok resp

/-- Embedding of the offer-processing body of `getFlightOffers` (source
lines 222-327).  Creating the currency formatter reads
`response.data[0].price.currency` (line 224), which throws a `TypeError`
when `data` is empty.  Otherwise the `forEach` over `response.data` starts
on the first offer: it sets `offerData.priceFrom` (line 233) and
`offerData.validatingAirline` (line 234) and then executes
`console.log("Price : ", priceFrom)` (line 235), which reads the
undeclared identifier `priceFrom` — `offerData.priceFrom` was set, but no
variable `priceFrom` exists in any enclosing scope — and therefore throws
a `ReferenceError`.  The itinerary/segment loop and the `sameOutbound`
merging below that line (lines 236-325) are unreachable, so the function
can never return an offer list for a non-empty `data`. -/
def processOffers (resp : FlightResponse) : Except JsError (List Offer) :=
  match resp.data with
  | [] => .error (.typeError "Cannot read properties of undefined (reading currency)")
  | _offer :: _rest => .error (.referenceError "priceFrom is not defined")

/-- Embedding of `getFlightOffers` (source lines 201-332) as the promise
it returns, with rejection channel `Except JsError` and resolution value
`JsError ⊕ List Offer`: the chain
`limiter.schedule(upstream).then(process).catch((err) => { return err; })`
turns every rejection or thrown processing error into a *resolution*
carrying the error value (`Sum.inl`), so the returned promise never
rejects. -/
def getFlightOffers (upstream : Except JsError RawBody) :
    Except JsError (JsError ⊕ List Offer) :=
  let processed : Except JsError (List Offer) :=
    match upstream with
    | .error e => .error e
    | .ok body =>
      match jsonParse body with
      | .error e => .error e
      | .ok resp => processOffers resp
  match processed with
  | .ok offerList => .ok (.inr offerList)
  | .error e => .ok (.inl e)

/-- Body of the HTTP response of `GET /get-flight-offers`. -/
inductive GfoBody where
  | offerList (offerList : List Offer)
  | errorBody (e : JsError)
deriving DecidableEq

/-- An HTTP response of the `/get-flight-offers` route: status code and
body. -/
structure GfoHttpResponse where
  status : Nat
  body : GfoBody
deriving DecidableEq

/-- Embedding of the `app.get("/get-flight-offers")` handler (source lines
471-485): a resolved promise is sent with Express's default status 200
(`res.send(flights)`); a rejected promise would be sent with status 500
(`res.status(500).send(err)`). -/
def handleGetFlightOffers (upstream : Except JsError RawBody) : GfoHttpResponse :=
  match getFlightOffers upstream with
  | .ok (.inr offerList) => { status := 200, body := .offerList offerList }
  | .ok (.inl e) => { status := 200, body := .errorBody e }
  | .error e => { status := 500, body := .errorBody e }

/-! ### The datepair price scanner

`pricesForDatepairs` (source lines 335-390) dispatches one rate-limited
upstream query per element of `datepairs` and mutates a shared object
`flights` plus the counters `responseCount`/`errorCount` from each task's
`.then`/`.catch`/`.finally`.  The model makes the interleaving explicit: a
*settlement trace* is a list of datepair strings, one entry per dispatched
task in the order the tasks settle; a trace is complete when it is a
permutation of the input list.  The per-pair upstream outcome is a
function of the datepair: `some payload` when the query succeeds and the
`.then` body runs to completion (`payload` carrying the values that
`parseFloat(response.data[0].price.total)` and the `Intl.NumberFormat`
formatter produce), `none` when the task ends in the `.catch` (upstream
rejection, or a throw inside `.then` such as an empty `data` array). -/

/-- A value of the `flights` map: the populated `{price, priceFormatted}`
record written by the `.then`, or the empty object written by the
`.catch`. -/
inductive PriceResult where
  | empty
  | result (price : Int) (priceFormatted : String)
deriving DecidableEq

/-- The numeric price and formatted price string a successful per-pair
query yields. -/
structure PricePayload where
  price : Int
  priceFormatted : String
deriving DecidableEq

/-- JavaScript object property write `m[k] = v`: overwrite in place when
the key exists, otherwise append (insertion order preserved). -/
def jsObjectSet (m : List (String × PriceResult)) (k : String) (v : PriceResult) :
    List (String × PriceResult) :=
  match m with
  | [] => [(k, v)]
  | (k1, v1) :: rest =>
    if k1 = k then (k, v) :: rest else (k1, v1) :: jsObjectSet rest k v

/-- JavaScript object property read `m[k]`. -/
def jsObjectGet (m : List (String × PriceResult)) (k : String) : Option PriceResult :=
  match m with
  | [] => none
  | (k1, v1) :: rest => if k1 = k then some v1 else jsObjectGet rest k

/-- The mutable state shared by the per-pair tasks of
`pricesForDatepairs`: the `flights` object, the two counters, and the
resolution cell of the surrounding promise (`none` while pending, `some
m` once `resolve(flights)` has been called with snapshot `m`). -/
structure ScanState where
  flights : List (String × PriceResult)
  responseCount : Nat
  errorCount : Nat
  resolved : Option (List (String × PriceResult))
deriving DecidableEq

/-- The state of the scanner before any task settles. -/
def initScan : ScanState :=
  { flights := [], responseCount := 0, errorCount := 0, resolved := none }

/-- One task settling for datepair `dp`: the `.then` writes the populated
record (on `some payload`), the `.catch` writes the empty object and
increments `errorCount` (on `none`); the `.finally` then increments
`responseCount` and, when it has reached `total` (`datepairs.length`),
calls `resolve(flights)` — recorded in `resolved` if the promise is still
pending. -/
def settleOne (outcome : String → Option PricePayload) (total : Nat)
    (st : ScanState) (dp : String) : ScanState :=
  let afterBody :=
    match outcome dp with
    | some payload =>
      { st with flights := jsObjectSet st.flights dp (.result payload.price payload.priceFormatted) }
    | none =>
      { st with flights := jsObjectSet st.flights dp .empty,
                errorCount := st.errorCount + 1 }
  let afterCount := { afterBody with responseCount := afterBody.responseCount + 1 }
  if afterCount.responseCount = total then
    match afterCount.resolved with
    | none => { afterCount with resolved := some afterCount.flights }
    | some _ => afterCount
  else afterCount

/-- Run the scanner of `pricesForDatepairs` for input list `datepairs`
over the settlement trace `trace`.  The promise has no other way to
settle: `reject` is never called in the source, and `resolve` is only
reachable from a task's `.finally`. -/
def runScan (outcome : String → Option PricePayload) (datepairs : List String)
    (trace : List String) : ScanState :=
  trace.foldl (settleOne outcome datepairs.length) initScan

/-- Embedding of the `app.post("/flights-for-datepairs")` handler (source
lines 594-607) at the end of trace `trace`: once the scanner promise
resolves the handler sends the map with Express's default status 200;
while it is pending no response exists (`none`).  The handler's 500 branch
requires a rejection, which `pricesForDatepairs` can never produce. -/
def handleFlightsForDatepairs (outcome : String → Option PricePayload)
    (datepairs : List String) (trace : List String) :
    Option (Nat × List (String × PriceResult)) :=
  match (runScan outcome datepairs trace).resolved with
  | some flights => some (200, flights)
  | none => none

/-- The `flights` entry that the settled task for datepair `dp`
leaves behind, as dictated by its outcome. -/
def expectedResult (outcome : String → Option PricePayload) (dp : String) : PriceResult :=
  match outcome dp with
  | some payload => .result payload.price payload.priceFormatted
  | none => .empty

/-! ### Further definitions used by the statements -/

/-- Rebuild a string from alternating token/separator parts: every element
of `parts` is a token followed by one separator character, and `lastTok`
is the final token.  Quantifying over this shape expresses "an arbitrary
string made of tokens separated by single separator characters". -/
def interleaveTokens : List (List Char × Char) → List Char → List Char
  | [], lastTok => lastTok
  | (t, c) :: rest, lastTok => t ++ c :: interleaveTokens rest lastTok

/-- The key sequence of a JS object modelled as an association list. -/
def mapKeys (m : List (String × PriceResult)) : List String :=
  m.map Prod.fst

/-- A sample raw outbound segment on carrier `XX`. -/
def sampleOutboundSeg : RawSegment :=
  { departure := { iataCode := "MRU", atTime := "2024-06-10T08:00:00" }
  , arrival := { iataCode := "CDG", atTime := "2024-06-10T18:00:00" }
  , carrierCode := "XX", operatingCarrierCode := none
  , number := "123", aircraftCode := "333", id := "1", duration := "PT10H" }

/-- A sample raw inbound segment departing at time `t` with segment id
`sid`. -/
def sampleInboundSeg (t sid : String) : RawSegment :=
  { departure := { iataCode := "CDG", atTime := t }
  , arrival := { iataCode := "MRU", atTime := "2024-06-18T08:00:00" }
  , carrierCode := "XX", operatingCarrierCode := none
  , number := "124", aircraftCode := "333", id := sid, duration := "PT11H" }

/-- A sample raw offer with the shared outbound itinerary and an inbound
itinerary departing at `inboundTime`. -/
def sampleOffer (oid inboundTime : String) : RawOffer :=
  { id := oid
  , price := { currency := "USD", total := "512.00" }
  , validatingAirlineCodes := ["XX"]
  , itineraries :=
      [ { duration := "PT10H", segments := [sampleOutboundSeg] }
      , { duration := "PT11H", segments := [sampleInboundSeg inboundTime oid] } ] }

/-- An upstream response carrying two raw offers whose outbound
itineraries have identical carrier sequences and whose inbound
itineraries differ (different departure times): the aggregation scenario
of the spec's testable property. -/
def sampleTwoOfferResponse : FlightResponse :=
  { data := [sampleOffer "1" "2024-06-17T10:00:00", sampleOffer "2" "2024-06-17T21:00:00"]
  , dictionaries :=
      { carriers := [("XX", "SAMPLE AIR")], aircraft := [("333", "AIRBUS A330")] } }

/-! ### Lemmas about the split primitives -/

theorem firstOccur_eq_none {c : Char} {cs s : List Char} (h : c ∉ s) :
    firstOccur (c :: cs) s = none := by
  induction s with
  | nil => rfl
  | cons x rest ih =>
    have hxc : ¬(c = x) := fun hcx => h (hcx ▸ List.mem_cons_self x rest)
    have hrest : c ∉ rest := fun hm => h (List.mem_cons_of_mem x hm)
    simp [firstOccur, List.isPrefixOf, ih hrest, hxc, beq_false_of_ne (Ne.symm hxc)]

theorem jsSplitCore_of_none {sep s : List Char} (h : firstOccur sep s = none) :
    jsSplitCore sep s = [s] := by
  rw [jsSplitCore]
  split
  · rfl
  · split
    · rfl
    · simp_all

theorem firstOccur_single_append {c : Char} {a : List Char} (b : List Char)
    (h : c ∉ a) : firstOccur [c] (a ++ c :: b) = some a.length := by
  induction a with
  | nil => simp [firstOccur, List.isPrefixOf]
  | cons x rest ih =>
    have hxc : ¬(c = x) := fun hcx => h (hcx ▸ List.mem_cons_self x rest)
    have hrest : c ∉ rest := fun hm => h (List.mem_cons_of_mem x hm)
    simp [firstOccur, List.isPrefixOf, beq_false_of_ne hxc, ih hrest]

theorem jsSplitCore_single_append {c : Char} {a : List Char} (b : List Char)
    (h : c ∉ a) : jsSplitCore [c] (a ++ c :: b) = a :: jsSplitCore [c] b := by
  rw [jsSplitCore]
  split
  · simp_all
  · split
    · rename_i heq
      rw [firstOccur_single_append b h] at heq
      exact absurd heq (by simp)
    · rename_i i heq
      rw [firstOccur_single_append b h] at heq
      have hi : i = a.length := by injection heq with h1; omega
      subst hi
      have htake : (a ++ c :: b).take a.length = a := List.take_left a (c :: b)
      have hdrop : (a ++ c :: b).drop (a.length + 1) = b := by
        have : a ++ c :: b = (a ++ [c]) ++ b := by simp
        rw [this]
        have hlen : (a ++ [c]).length = a.length + 1 := by simp
        rw [← hlen]
        exact List.drop_left (a ++ [c]) b
      simp only [List.length_singleton]
      rw [htake, hdrop]

theorem selfIsPrefixOfAppend (l rest : List Char) : l.isPrefixOf (l ++ rest) = true := by
  induction l with
  | nil => simp [List.isPrefixOf]
  | cons c cs ih => simp [List.isPrefixOf, ih]

theorem jsSplitCore_sep_append {sep : List Char} (rest : List Char)
    (hsep : sep ≠ []) : jsSplitCore sep (sep ++ rest) = [] :: jsSplitCore sep rest := by
  obtain ⟨c, cs, rfl⟩ : ∃ c cs, sep = c :: cs := by
    cases sep with
    | nil => exact absurd rfl hsep
    | cons c cs => exact ⟨c, cs, rfl⟩
  rw [jsSplitCore]
  split
  · simp_all
  · have hfo : firstOccur (c :: cs) ((c :: cs) ++ rest) = some 0 := by
      simp [firstOccur, selfIsPrefixOfAppend (c :: cs) rest]
    split
    · simp_all
    · rename_i i heq
      rw [hfo] at heq
      have hi : i = 0 := by injection heq with h1; omega
      subst hi
      simp

/-! ### Lemmas about formatDuration -/

theorem not_mem_of_forall_digit {l : List Char} (h : ∀ c ∈ l, c.isDigit)
    {d : Char} (hd : d.isDigit = false) : d ∉ l :=
  fun hm => absurd (h d hm) (by simp [hd])

theorem notMemAppend {d : Char} {l1 l2 : List Char} (h1 : d ∉ l1) (h2 : d ∉ l2) :
    d ∉ l1 ++ l2 := by simp [List.mem_append, h1, h2]

theorem notMemCons {d c : Char} {l : List Char} (h1 : d ≠ c) (h2 : d ∉ l) :
    d ∉ c :: l := by simp [List.mem_cons, h1, h2]

theorem formatDurationL_both {hs ms : List Char}
    (hh : ∀ c ∈ hs, c.isDigit) (hm : ∀ c ∈ ms, c.isDigit) :
    formatDurationL ('P' :: 'T' :: (hs ++ 'H' :: (ms ++ ['M']))) =
      hs ++ (" h ".data ++ (ms ++ " min".data)) := by
  have hH_hs : ('H' : Char) ∉ hs := not_mem_of_forall_digit hh (by decide)
  have hH_ms : ('H' : Char) ∉ ms := not_mem_of_forall_digit hm (by decide)
  have hM_ms : ('M' : Char) ∉ ms := not_mem_of_forall_digit hm (by decide)
  have hP_rest : ('P' : Char) ∉ hs ++ 'H' :: (ms ++ ['M']) :=
    notMemAppend (not_mem_of_forall_digit hh (by decide))
      (notMemCons (by decide)
        (notMemAppend (not_mem_of_forall_digit hm (by decide))
          (notMemCons (by decide) (List.not_mem_nil 'P'))))
  have hH_mem : ('H' : Char) ∈ 'P' :: 'T' :: (hs ++ 'H' :: (ms ++ ['M'])) := by
    simp [List.mem_append]
  have hM_mem : ('M' : Char) ∈ 'P' :: 'T' :: (hs ++ 'H' :: (ms ++ ['M'])) := by
    simp [List.mem_append]
  have ePT : jsSplitCore ['P', 'T'] ('P' :: 'T' :: (hs ++ 'H' :: (ms ++ ['M']))) =
      [[], hs ++ 'H' :: (ms ++ ['M'])] := by
    have h1 : ('P' :: 'T' :: (hs ++ 'H' :: (ms ++ ['M']))) =
        ['P', 'T'] ++ (hs ++ 'H' :: (ms ++ ['M'])) := rfl
    rw [h1, jsSplitCore_sep_append _ (by simp),
      jsSplitCore_of_none (firstOccur_eq_none hP_rest)]
  have eH : jsSplitCore ['H'] (hs ++ 'H' :: (ms ++ ['M'])) =
      [hs, ms ++ ['M']] := by
    rw [jsSplitCore_single_append _ hH_hs,
      jsSplitCore_of_none (firstOccur_eq_none
        (notMemAppend hH_ms (notMemCons (by decide) (List.not_mem_nil 'H'))))]
  have eM : jsSplitCore ['M'] (ms ++ ['M']) = [ms, []] := by
    have h2 : ms ++ ['M'] = ms ++ 'M' :: [] := rfl
    rw [h2, jsSplitCore_single_append _ hM_ms,
      jsSplitCore_of_none (show firstOccur ['M'] [] = none from rfl)]
  simp [formatDurationL, jsSplit, ePT, eH, eM, hH_mem, hM_mem]

theorem formatDurationL_minutes {ms : List Char} (hm : ∀ c ∈ ms, c.isDigit) :
    formatDurationL ('P' :: 'T' :: (ms ++ ['M'])) = ms ++ " min".data := by
  have hM_ms : ('M' : Char) ∉ ms := not_mem_of_forall_digit hm (by decide)
  have hH_all : ('H' : Char) ∉ 'P' :: 'T' :: (ms ++ ['M']) :=
    notMemCons (by decide) (notMemCons (by decide)
      (notMemAppend (not_mem_of_forall_digit hm (by decide))
        (notMemCons (by decide) (List.not_mem_nil 'H'))))
  have hM_mem : ('M' : Char) ∈ 'P' :: 'T' :: (ms ++ ['M']) := by
    simp [List.mem_append]
  have hP_rest : ('P' : Char) ∉ ms ++ ['M'] :=
    notMemAppend (not_mem_of_forall_digit hm (by decide))
      (notMemCons (by decide) (List.not_mem_nil 'P'))
  have ePT : jsSplitCore ['P', 'T'] ('P' :: 'T' :: (ms ++ ['M'])) =
      [[], ms ++ ['M']] := by
    have h1 : ('P' :: 'T' :: (ms ++ ['M'])) = ['P', 'T'] ++ (ms ++ ['M']) := rfl
    rw [h1, jsSplitCore_sep_append _ (by simp),
      jsSplitCore_of_none (firstOccur_eq_none hP_rest)]
  have eM : jsSplitCore ['M'] (ms ++ ['M']) = [ms, []] := by
    have h2 : ms ++ ['M'] = ms ++ 'M' :: [] := rfl
    rw [h2, jsSplitCore_single_append _ hM_ms,
      jsSplitCore_of_none (show firstOccur ['M'] [] = none from rfl)]
  simp [formatDurationL, jsSplit, ePT, eM, hH_all, hM_mem]

theorem formatDurationL_hours {hs : List Char} (hh : ∀ c ∈ hs, c.isDigit) :
    formatDurationL ('P' :: 'T' :: (hs ++ ['H'])) = hs ++ " h".data := by
  have hH_hs : ('H' : Char) ∉ hs := not_mem_of_forall_digit hh (by decide)
  have hM_all : ('M' : Char) ∉ 'P' :: 'T' :: (hs ++ ['H']) :=
    notMemCons (by decide) (notMemCons (by decide)
      (notMemAppend (not_mem_of_forall_digit hh (by decide))
        (notMemCons (by decide) (List.not_mem_nil 'M'))))
  have hH_mem : ('H' : Char) ∈ 'P' :: 'T' :: (hs ++ ['H']) := by
    simp [List.mem_append]
  have hP_rest : ('P' : Char) ∉ hs ++ ['H'] :=
    notMemAppend (not_mem_of_forall_digit hh (by decide))
      (notMemCons (by decide) (List.not_mem_nil 'P'))
  have ePT : jsSplitCore ['P', 'T'] ('P' :: 'T' :: (hs ++ ['H'])) =
      [[], hs ++ ['H']] := by
    have h1 : ('P' :: 'T' :: (hs ++ ['H'])) = ['P', 'T'] ++ (hs ++ ['H']) := rfl
    rw [h1, jsSplitCore_sep_append _ (by simp),
      jsSplitCore_of_none (firstOccur_eq_none hP_rest)]
  have eH : jsSplitCore ['H'] (hs ++ ['H']) = [hs, []] := by
    have h2 : hs ++ ['H'] = hs ++ 'H' :: [] := rfl
    rw [h2, jsSplitCore_single_append _ hH_hs,
      jsSplitCore_of_none (show firstOccur ['H'] [] = none from rfl)]
  simp [formatDurationL, jsSplit, ePT, eH, hH_mem, hM_all]

/-! ### Lemmas about formatString -/

theorem splitPred_ne_nil (p : Char → Bool) (l : List Char) : splitPred p l ≠ [] := by
  cases l with
  | nil => simp [splitPred]
  | cons c rest =>
    simp only [splitPred]
    match splitPred p rest with
    | [] => simp
    | w :: ws =>
      by_cases hc : p c <;> simp [hc]

theorem splitPred_no_sep {p : Char → Bool} {t : List Char}
    (h : ∀ c ∈ t, p c = false) : splitPred p t = [t] := by
  induction t with
  | nil => rfl
  | cons c rest ih =>
    have hc : p c = false := h c (List.mem_cons_self c rest)
    have hrest : ∀ x ∈ rest, p x = false := fun x hx => h x (List.mem_cons_of_mem c hx)
    simp only [splitPred, ih hrest, hc]
    simp

theorem splitPred_append_sep {p : Char → Bool} {t : List Char} {c : Char}
    (rest : List Char) (ht : ∀ x ∈ t, p x = false) (hc : p c = true) :
    splitPred p (t ++ c :: rest) = t :: splitPred p rest := by
  induction t with
  | nil =>
    simp only [List.nil_append, splitPred]
    match hsp : splitPred p rest with
    | [] => exact absurd hsp (splitPred_ne_nil p rest)
    | w :: ws => simp [hc]
  | cons x t1 ih =>
    have hx : p x = false := ht x (List.mem_cons_self x t1)
    have ht1 : ∀ y ∈ t1, p y = false := fun y hy => ht y (List.mem_cons_of_mem x hy)
    simp only [List.cons_append, splitPred, List.append_eq]
    rw [ih ht1]
    simp [hx]

/-! ### Lemmas about the scanner state machine -/

theorem settleOne_flights (o : String → Option PricePayload) (total : Nat)
    (st : ScanState) (dp : String) :
    (settleOne o total st dp).flights = jsObjectSet st.flights dp (expectedResult o dp) := by
  unfold settleOne expectedResult
  cases h : o dp <;> dsimp <;> split <;> (try split) <;> rfl

theorem settleOne_responseCount (o : String → Option PricePayload) (total : Nat)
    (st : ScanState) (dp : String) :
    (settleOne o total st dp).responseCount = st.responseCount + 1 := by
  unfold settleOne
  cases h : o dp <;> dsimp <;> split <;> (try split) <;> rfl

theorem settleOne_resolved_of_ne (o : String → Option PricePayload) (total : Nat)
    (st : ScanState) (dp : String) (h : st.responseCount + 1 ≠ total) :
    (settleOne o total st dp).resolved = st.resolved := by
  unfold settleOne
  cases ho : o dp <;> dsimp <;> rw [if_neg h]

theorem settleOne_resolved_of_eq (o : String → Option PricePayload) (total : Nat)
    (st : ScanState) (dp : String) (h : st.responseCount + 1 = total)
    (hr : st.resolved = none) :
    (settleOne o total st dp).resolved = some (settleOne o total st dp).flights := by
  unfold settleOne
  cases ho : o dp <;> dsimp <;> rw [if_pos h] <;> rw [hr]

theorem foldl_settle_responseCount (o : String → Option PricePayload) (total : Nat) :
    ∀ (trace : List String) (st : ScanState),
      (trace.foldl (settleOne o total) st).responseCount = st.responseCount + trace.length := by
  intro trace
  induction trace with
  | nil => intro st; simp
  | cons dp rest ih =>
    intro st
    simp only [List.foldl_cons, ih, settleOne_responseCount, List.length_cons]
    omega

theorem foldl_settle_flights (o : String → Option PricePayload) (total : Nat) :
    ∀ (trace : List String) (st : ScanState),
      (trace.foldl (settleOne o total) st).flights =
        trace.foldl (fun m dp => jsObjectSet m dp (expectedResult o dp)) st.flights := by
  intro trace
  induction trace with
  | nil => intro st; rfl
  | cons dp rest ih =>
    intro st
    simp only [List.foldl_cons, ih, settleOne_flights]

theorem foldl_settle_resolved_none (o : String → Option PricePayload) (total : Nat) :
    ∀ (trace : List String) (st : ScanState), st.resolved = none →
      st.responseCount + trace.length < total →
      (trace.foldl (settleOne o total) st).resolved = none := by
  intro trace
  induction trace with
  | nil => intro st hr _; exact hr
  | cons dp rest ih =>
    intro st hr hlt
    simp only [List.length_cons] at hlt
    have hne : st.responseCount + 1 ≠ total := by omega
    have hr1 : (settleOne o total st dp).resolved = none := by
      rw [settleOne_resolved_of_ne o total st dp hne, hr]
    have hc1 : (settleOne o total st dp).responseCount + rest.length < total := by
      rw [settleOne_responseCount]; omega
    simpa using ih (settleOne o total st dp) hr1 hc1

theorem foldl_settle_resolved_last (o : String → Option PricePayload) (total : Nat) :
    ∀ (trace : List String) (st : ScanState), st.resolved = none →
      st.responseCount + trace.length = total → trace ≠ [] →
      (trace.foldl (settleOne o total) st).resolved =
        some (trace.foldl (settleOne o total) st).flights := by
  intro trace
  induction trace with
  | nil => intro st _ _ hne; exact absurd rfl hne
  | cons dp rest ih =>
    intro st hr hlen _
    by_cases hrestnil : rest = []
    · subst hrestnil
      simp only [List.length_cons, List.length_nil] at hlen
      simp only [List.foldl_cons, List.foldl_nil]
      exact settleOne_resolved_of_eq o total st dp (by omega) hr
    · have hrl : 0 < rest.length := List.length_pos.mpr hrestnil
      have hne : st.responseCount + 1 ≠ total := by
        simp only [List.length_cons] at hlen; omega
      have hr1 : (settleOne o total st dp).resolved = none := by
        rw [settleOne_resolved_of_ne o total st dp hne, hr]
      have hlen1 : (settleOne o total st dp).responseCount + rest.length = total := by
        rw [settleOne_responseCount]
        simp only [List.length_cons] at hlen
        omega
      simpa using ih (settleOne o total st dp) hr1 hlen1 hrestnil

/-! ### Lemmas about the JS object model -/

theorem jsObjectGet_set_self (m : List (String × PriceResult)) (k : String)
    (v : PriceResult) : jsObjectGet (jsObjectSet m k v) k = some v := by
  induction m with
  | nil => simp [jsObjectSet, jsObjectGet]
  | cons kv rest ih =>
    obtain ⟨k1, v1⟩ := kv
    by_cases h : k1 = k
    · simp [jsObjectSet, jsObjectGet, h]
    · simp [jsObjectSet, jsObjectGet, h, ih]

theorem jsObjectGet_set_other (m : List (String × PriceResult)) {k k1 : String}
    (v : PriceResult) (h : k1 ≠ k) :
    jsObjectGet (jsObjectSet m k v) k1 = jsObjectGet m k1 := by
  induction m with
  | nil => simp [jsObjectSet, jsObjectGet, Ne.symm h]
  | cons kv rest ih =>
    obtain ⟨k2, v2⟩ := kv
    by_cases h2 : k2 = k
    · subst h2
      simp [jsObjectSet, jsObjectGet, Ne.symm h]
    · simp [jsObjectSet, jsObjectGet, h2, ih]

theorem mapKeys_set (m : List (String × PriceResult)) (k : String) (v : PriceResult) :
    mapKeys (jsObjectSet m k v) =
      if k ∈ mapKeys m then mapKeys m else mapKeys m ++ [k] := by
  induction m with
  | nil => simp [mapKeys, jsObjectSet]
  | cons kv rest ih =>
    obtain ⟨k1, v1⟩ := kv
    by_cases h : k1 = k
    · subst h
      simp [mapKeys, jsObjectSet]
    · simp only [mapKeys, jsObjectSet, if_neg h, List.map_cons] at ih ⊢
      rw [ih]
      by_cases hk : k ∈ List.map Prod.fst rest
      · simp [hk, List.mem_cons]
      · simp [hk, List.mem_cons, Ne.symm h]

/-- The per-key write that each settled task performs on `flights`. -/
theorem jsObjectGet_writeFold (o : String → Option PricePayload) :
    ∀ (l : List String) (m : List (String × PriceResult)) (k : String),
      jsObjectGet (l.foldl (fun acc dp => jsObjectSet acc dp (expectedResult o dp)) m) k =
        if k ∈ l then some (expectedResult o k) else jsObjectGet m k := by
  intro l
  induction l with
  | nil => intro m k; simp
  | cons dp rest ih =>
    intro m k
    simp only [List.foldl_cons, ih]
    by_cases hk : k ∈ rest
    · simp [hk]
    · by_cases hkd : k = dp
      · subst hkd
        simp [hk, jsObjectGet_set_self]
      · simp [hk, hkd, jsObjectGet_set_other m (expectedResult o dp) hkd]

theorem mapKeys_writeFold_mem (o : String → Option PricePayload) :
    ∀ (l : List String) (m : List (String × PriceResult)) (a : String),
      a ∈ mapKeys (l.foldl (fun acc dp => jsObjectSet acc dp (expectedResult o dp)) m) ↔
        a ∈ mapKeys m ∨ a ∈ l := by
  intro l
  induction l with
  | nil => intro m a; simp
  | cons dp rest ih =>
    intro m a
    simp only [List.foldl_cons, ih, mapKeys_set]
    by_cases hdp : dp ∈ mapKeys m
    · simp only [if_pos hdp]
      constructor
      · rintro (h | h)
        · exact Or.inl h
        · exact Or.inr (List.mem_cons_of_mem dp h)
      · rintro (h | h)
        · exact Or.inl h
        · rcases List.mem_cons.mp h with h1 | h1
          · exact Or.inl (h1 ▸ hdp)
          · exact Or.inr h1
    · simp only [if_neg hdp, List.mem_append, List.mem_singleton]
      constructor
      · rintro ((h | h) | h)
        · exact Or.inl h
        · exact Or.inr (h ▸ List.mem_cons_self dp rest)
        · exact Or.inr (List.mem_cons_of_mem dp h)
      · rintro (h | h)
        · exact Or.inl (Or.inl h)
        · rcases List.mem_cons.mp h with h1 | h1
          · exact Or.inl (Or.inr h1)
          · exact Or.inr h1

theorem mapKeys_writeFold_nodup (o : String → Option PricePayload) :
    ∀ (l : List String) (m : List (String × PriceResult)),
      (mapKeys m).Nodup →
      (mapKeys (l.foldl (fun acc dp => jsObjectSet acc dp (expectedResult o dp)) m)).Nodup := by
  intro l
  induction l with
  | nil => intro m h; exact h
  | cons dp rest ih =>
    intro m h
    simp only [List.foldl_cons]
    apply ih
    rw [mapKeys_set]
    by_cases hdp : dp ∈ mapKeys m
    · simpa [hdp] using h
    · simp only [if_neg hdp]
      simp [List.nodup_append, h, hdp]

/-! ### The claims -/

/-- C1: the claim says a failed flight-offer retrieval or processing run
yields an HTTP 500 carrying the error, and that 200 is reserved for
success.  In fact the `/get-flight-offers` route *always* answers with
status 200, whatever the upstream outcome: `getFlightOffers` ends in
`.catch((err) => { return err; })`, which converts every rejection and
every processing throw into a successful resolution carrying the error
value, so the handler's `res.status(500)` branch is unreachable and the
error is sent with the default status 200. -/
theorem getFlightOffers_route_always_200 :
    ∀ upstream : Except JsError RawBody,
      (handleGetFlightOffers upstream).status = 200 := by
  intro upstream
  rcases upstream with e | body
  · rfl
  · rcases body with text | resp
    · rfl
    · rcases resp with ⟨data, dict⟩
      rcases data with _ | ⟨o, rest⟩ <;> rfl

/-- C3 (counterexample): the outbound-equality test is *not* multiset
equality and is *not* symmetric.  With `it1 = [AX, AX]` and
`it2 = [AX, BY]` (same length), every carrier string of `it1` occurs in
`it2`, so `sameOutbound it1 it2 = true`, yet the carrier multisets differ
(no permutation relates them) and the swapped test returns `false`. -/
theorem sameOutbound_not_multiset_cex :
    sameOutbound ⟨[⟨"A", "X"⟩, ⟨"A", "X"⟩]⟩ ⟨[⟨"A", "X"⟩, ⟨"B", "Y"⟩]⟩ = true ∧
    sameOutbound ⟨[⟨"A", "X"⟩, ⟨"B", "Y"⟩]⟩ ⟨[⟨"A", "X"⟩, ⟨"A", "X"⟩]⟩ = false ∧
    ¬ ((⟨[⟨"A", "X"⟩, ⟨"A", "X"⟩]⟩ : ItinView).segments.map
          (fun s => s.carrierCode ++ s.carrierName)).Perm
        ((⟨[⟨"A", "X"⟩, ⟨"B", "Y"⟩]⟩ : ItinView).segments.map
          (fun s => s.carrierCode ++ s.carrierName)) :=
  ⟨by decide, by decide, by decide⟩

/-- C3 (amended): `sameOutbound it1 it2` returns `true` iff the two
itineraries have the same number of segments and every
`carrierCode ++ carrierName` concatenation of the *first* occurs somewhere
in the second — a one-sided set inclusion that ignores multiplicity and is
not symmetric, rather than the multiset equality the claim states. -/
theorem sameOutbound_characterization :
    ∀ it1 it2 : ItinView,
      sameOutbound it1 it2 = true ↔
        (it1.segments.length = it2.segments.length ∧
          ∀ f ∈ it1.segments.map (fun s => s.carrierCode ++ s.carrierName),
            f ∈ it2.segments.map (fun s => s.carrierCode ++ s.carrierName)) := by
  intro it1 it2
  by_cases h : it1.segments.length = it2.segments.length
  · simp [sameOutbound, h, List.all_eq_true]
  · simp [sameOutbound, h]

/-- C4: the claim describes the aggregation result for two offers sharing
an outbound (one `Offer`, two inbounds).  The code cannot produce it: on
the very first offer the processing loop executes
`console.log("Price : ", priceFrom)`, which reads the undeclared
identifier `priceFrom` and throws a `ReferenceError`, so for the two-offer
response of the claim the promise resolves with that error (swallowed by
the final `.catch`) and no `Offer` list is ever built. -/
theorem getFlightOffers_two_offer_referenceError :
    getFlightOffers (.ok (.parsed sampleTwoOfferResponse)) =
      .ok (.inl (.referenceError "priceFrom is not defined")) ∧
    handleGetFlightOffers (.ok (.parsed sampleTwoOfferResponse)) =
      { status := 200
      , body := .errorBody (.referenceError "priceFrom is not defined") } :=
  ⟨rfl, rfl⟩

/-- C5: `formatDuration` renders `"<h> h <m> min"` when both an hour and a
minute component are present, `"<m> min"` when only minutes are present,
and `"<h> h"` when only hours are present, for arbitrary digit strings in
the components — so a zero component is still rendered — and in
particular on the spec's examples `"PT2H30M"`, `"PT45M"`, `"PT5H"` and
`"PT0H45M"`. -/
theorem formatDuration_components :
    (∀ hs ms : List Char, (∀ c ∈ hs, c.isDigit) → (∀ c ∈ ms, c.isDigit) →
        formatDuration ⟨'P' :: 'T' :: (hs ++ 'H' :: (ms ++ ['M']))⟩ =
          ⟨hs ++ (" h ".data ++ (ms ++ " min".data))⟩) ∧
    (∀ ms : List Char, (∀ c ∈ ms, c.isDigit) →
        formatDuration ⟨'P' :: 'T' :: (ms ++ ['M'])⟩ = ⟨ms ++ " min".data⟩) ∧
    (∀ hs : List Char, (∀ c ∈ hs, c.isDigit) →
        formatDuration ⟨'P' :: 'T' :: (hs ++ ['H'])⟩ = ⟨hs ++ " h".data⟩) ∧
    formatDuration "PT2H30M" = "2 h 30 min" ∧
    formatDuration "PT45M" = "45 min" ∧
    formatDuration "PT5H" = "5 h" ∧
    formatDuration "PT0H45M" = "0 h 45 min" := by
  refine ⟨?_, ?_, ?_, ?_, ?_, ?_, ?_⟩
  · intro hs ms hh hm
    show (⟨formatDurationL _⟩ : String) = _
    rw [formatDurationL_both hh hm]
  · intro ms hm
    show (⟨formatDurationL _⟩ : String) = _
    rw [formatDurationL_minutes hm]
  · intro hs hh
    show (⟨formatDurationL _⟩ : String) = _
    rw [formatDurationL_hours hh]
  · show (⟨formatDurationL "PT2H30M".data⟩ : String) = "2 h 30 min"
    rw [show "PT2H30M".data = 'P' :: 'T' :: (['2'] ++ 'H' :: (['3', '0'] ++ ['M'])) from rfl,
      formatDurationL_both (by decide) (by decide)]
    rfl
  · show (⟨formatDurationL "PT45M".data⟩ : String) = "45 min"
    rw [show "PT45M".data = 'P' :: 'T' :: (['4', '5'] ++ ['M']) from rfl,
      formatDurationL_minutes (by decide)]
    rfl
  · show (⟨formatDurationL "PT5H".data⟩ : String) = "5 h"
    rw [show "PT5H".data = 'P' :: 'T' :: (['5'] ++ ['H']) from rfl,
      formatDurationL_hours (by decide)]
    rfl
  · show (⟨formatDurationL "PT0H45M".data⟩ : String) = "0 h 45 min"
    rw [show "PT0H45M".data = 'P' :: 'T' :: (['0'] ++ 'H' :: (['4', '5'] ++ ['M'])) from rfl,
      formatDurationL_both (by decide) (by decide)]
    rfl

/-- C5 (witness): the both-components branch of `formatDuration_components`
applied at the concrete components `2` and `30`. -/
theorem formatDuration_components_witness :
    formatDuration ⟨'P' :: 'T' :: (['2'] ++ 'H' :: (['3', '0'] ++ ['M']))⟩ =
      ⟨['2'] ++ (" h ".data ++ (['3', '0'] ++ " min".data))⟩ :=
  formatDuration_components.1 ['2'] ['3', '0'] (by decide) (by decide)

/-- C6 (counterexample): `formatTitleCase("SAINT-LOUIS")` does not return
`"Saint-Louis"`: the tokens are rejoined with `" "` (the `join(" ")` of
the source), so the hyphen is replaced by a space. -/
theorem formatString_saint_louis_cex :
    formatString "SAINT-LOUIS" = "Saint Louis" ∧
    formatString "SAINT-LOUIS" ≠ "Saint-Louis" :=
  ⟨by decide, by decide⟩

/-- C6 (amended): `formatTitleCase("SAINT-LOUIS")` returns
`"Saint Louis"` — the input is split on the hyphen, each token is
capitalized, and the tokens are rejoined with spaces, so the hyphen is not
preserved. -/
theorem formatString_saint_louis :
    formatString "SAINT-LOUIS" = "Saint Louis" := by decide

/-- Splitting an interleaved token/separator string recovers exactly the
tokens. -/
theorem splitPred_interleave :
    ∀ (parts : List (List Char × Char)) (lastTok : List Char),
      (∀ pr ∈ parts, (∀ ch ∈ pr.1, isSepChar ch = false) ∧ isSepChar pr.2 = true) →
      (∀ ch ∈ lastTok, isSepChar ch = false) →
      splitPred isSepChar (interleaveTokens parts lastTok) =
        parts.map Prod.fst ++ [lastTok] := by
  intro parts
  induction parts with
  | nil =>
    intro lastTok _ hlast
    simp [interleaveTokens, splitPred_no_sep hlast]
  | cons pr rest ih =>
    intro lastTok hp hlast
    obtain ⟨t, c⟩ := pr
    have h1 := hp (t, c) (List.mem_cons_self _ _)
    have h2 : ∀ x ∈ rest, (∀ ch ∈ x.1, isSepChar ch = false) ∧ isSepChar x.2 = true :=
      fun x hx => hp x (List.mem_cons_of_mem _ hx)
    simp only [interleaveTokens]
    rw [splitPred_append_sep _ h1.1 h1.2, ih lastTok h2 hlast]
    simp

/-- C7: `formatTitleCase` splits its input on spaces and hyphens,
capitalizes the first letter of each token, lowercases the rest of each
token, and rejoins the tokens with spaces: for any string assembled from
separator-free tokens interleaved with space/hyphen separator characters,
the output is the capitalized tokens joined by spaces; in particular
`formatTitleCase("NEW YORK CITY") = "New York City"`. -/
theorem formatString_title_case :
    (∀ (parts : List (List Char × Char)) (lastTok : List Char),
      (∀ pr ∈ parts, (∀ ch ∈ pr.1, isSepChar ch = false) ∧ isSepChar pr.2 = true) →
      (∀ ch ∈ lastTok, isSepChar ch = false) →
      formatString ⟨interleaveTokens parts lastTok⟩ =
        ⟨joinSpace ((parts.map (fun pr => jsWordCap pr.1)) ++ [jsWordCap lastTok])⟩) ∧
    formatString "NEW YORK CITY" = "New York City" := by
  constructor
  · intro parts lastTok hp hlast
    show (⟨joinSpace ((splitPred isSepChar (interleaveTokens parts lastTok)).map jsWordCap)⟩ :
        String) = _
    rw [splitPred_interleave parts lastTok hp hlast]
    congr 1
    simp only [List.map_append, List.map_map, List.map_cons, List.map_nil]
    rfl
  · decide

/-- C7 (witness): `formatString_title_case` applied to the three tokens
`NEW`, `YORK`, `CITY` interleaved with spaces. -/
theorem formatString_title_case_witness :
    formatString ⟨interleaveTokens [("NEW".data, ' '), ("YORK".data, ' ')] "CITY".data⟩ =
      ⟨joinSpace (([("NEW".data, ' '), ("YORK".data, ' ')].map (fun pr => jsWordCap pr.1)) ++
        [jsWordCap "CITY".data])⟩ :=
  formatString_title_case.1 [("NEW".data, ' '), ("YORK".data, ' ')] "CITY".data
    (by decide) (by decide)

/-- C2: for every non-empty input list and every complete settlement trace
(one settlement per dispatched task, in any order), the scanner promise
resolves exactly at the last settlement with a map that has an entry for
every input pair — a populated `{price, priceFormatted}` record where the
pair's query succeeded, the empty object where it failed — and is still
pending after every proper prefix of the trace (full-barrier join).  The
statement quantifies over every outcome assignment, so no single pair's
failure can prevent the others from being recorded or the promise from
resolving. -/
theorem pricesForDatepairs_full_barrier :
    ∀ (outcome : String → Option PricePayload) (datepairs trace : List String),
      datepairs ≠ [] → trace.Perm datepairs →
      ((runScan outcome datepairs trace).resolved =
          some (runScan outcome datepairs trace).flights ∧
        (∀ dp ∈ datepairs, ∀ payload, outcome dp = some payload →
          jsObjectGet (runScan outcome datepairs trace).flights dp =
            some (.result payload.price payload.priceFormatted)) ∧
        (∀ dp ∈ datepairs, outcome dp = none →
          jsObjectGet (runScan outcome datepairs trace).flights dp = some .empty) ∧
        (∀ k, k < trace.length →
          (runScan outcome datepairs (trace.take k)).resolved = none)) := by
  intro o pairs trace hne hperm
  have hlen : trace.length = pairs.length := hperm.length_eq
  have htne : trace ≠ [] := by
    intro h
    subst h
    exact hne hperm.symm.eq_nil
  have hfl : (runScan o pairs trace).flights =
      trace.foldl (fun m d => jsObjectSet m d (expectedResult o d)) initScan.flights :=
    foldl_settle_flights o pairs.length trace initScan
  refine ⟨?_, ?_, ?_, ?_⟩
  · exact foldl_settle_resolved_last o pairs.length trace initScan rfl
      (by simp [initScan, hlen]) htne
  · intro dp hdp payload hpay
    rw [hfl, jsObjectGet_writeFold o trace initScan.flights dp,
      if_pos (hperm.mem_iff.mpr hdp)]
    simp [expectedResult, hpay]
  · intro dp hdp hpay
    rw [hfl, jsObjectGet_writeFold o trace initScan.flights dp,
      if_pos (hperm.mem_iff.mpr hdp)]
    simp [expectedResult, hpay]
  · intro k hk
    exact foldl_settle_resolved_none o pairs.length (trace.take k) initScan rfl
      (by simp [initScan, List.length_take]; omega)

/-- C2 (witness): `pricesForDatepairs_full_barrier` at two concrete pairs,
one succeeding and one failing, settling in reverse dispatch order. -/
theorem pricesForDatepairs_full_barrier_witness :
    (runScan
        (fun dp => if dp = "2024-06-10>2024-06-17"
          then some { price := 512, priceFormatted := "USD512.00" } else none)
        ["2024-06-10>2024-06-17", "2024-06-11>2024-06-18"]
        ["2024-06-11>2024-06-18", "2024-06-10>2024-06-17"]).resolved =
      some (runScan
        (fun dp => if dp = "2024-06-10>2024-06-17"
          then some { price := 512, priceFormatted := "USD512.00" } else none)
        ["2024-06-10>2024-06-17", "2024-06-11>2024-06-18"]
        ["2024-06-11>2024-06-18", "2024-06-10>2024-06-17"]).flights :=
  (pricesForDatepairs_full_barrier _ _ _ (by decide) (by decide)).1

/-- C10: with an empty datepair list no task is ever dispatched, so no
`.finally` callback runs, the completion check `responseCount ===
datepairs.length` is never evaluated, and the promise stays pending
forever (it also never rejects: `reject` is not called anywhere in
`pricesForDatepairs`); for every non-empty list and complete settlement
trace the promise does resolve. -/
theorem pricesForDatepairs_empty_pending :
    (∀ (outcome : String → Option PricePayload) (trace : List String),
        trace.Perm ([] : List String) →
        (runScan outcome [] trace).resolved = none) ∧
    (∀ (outcome : String → Option PricePayload) (datepairs trace : List String),
        datepairs ≠ [] → trace.Perm datepairs →
        (runScan outcome datepairs trace).resolved =
          some (runScan outcome datepairs trace).flights) := by
  constructor
  · intro o trace hperm
    have h : trace = [] := hperm.eq_nil
    subst h
    rfl
  · intro o pairs trace hne hperm
    have htne : trace ≠ [] := by
      intro h
      subst h
      exact hne hperm.symm.eq_nil
    exact foldl_settle_resolved_last o pairs.length trace initScan rfl
      (by simp [initScan, hperm.length_eq]) htne

/-- C10 (witness): `pricesForDatepairs_empty_pending` applied to the empty
list (the promise is still pending after the empty trace) and to a
singleton list (the promise resolves). -/
theorem pricesForDatepairs_empty_pending_witness :
    (runScan (fun _ => none) [] []).resolved = none ∧
    (runScan (fun _ => none) ["2024-06-10>2024-06-17"] ["2024-06-10>2024-06-17"]).resolved =
      some (runScan (fun _ => none) ["2024-06-10>2024-06-17"]
        ["2024-06-10>2024-06-17"]).flights :=
  ⟨pricesForDatepairs_empty_pending.1 (fun _ => none) [] (List.Perm.refl []),
    pricesForDatepairs_empty_pending.2 (fun _ => none) _ _ (by decide) (by decide)⟩

/-- C9 (counterexample): an input list with the same datepair twice yields
a 200 response whose mapping has a single entry, not one entry per input
element — JavaScript object keys are unique, so the second task overwrites
the first task's key instead of adding an entry. -/
theorem pricesForDatepairs_duplicate_cex :
    handleFlightsForDatepairs (fun _ => none)
        ["2024-06-10>2024-06-17", "2024-06-10>2024-06-17"]
        ["2024-06-10>2024-06-17", "2024-06-10>2024-06-17"] =
      some (200, [("2024-06-10>2024-06-17", PriceResult.empty)]) ∧
    (["2024-06-10>2024-06-17", "2024-06-10>2024-06-17"] : List String).length = 2 :=
  ⟨by decide, by decide⟩

/-- C9 (amended): for every caller-supplied non-empty datepair list and
complete settlement trace, the 200 response of `POST
/flights-for-datepairs` is a mapping with exactly one entry per *distinct*
datepair of the input (`datepairs.dedup.length` entries) — equal to the
input length only when the input has no repeated pairs, since repeated
pairs collapse onto one object key. -/
theorem pricesForDatepairs_entry_count :
    ∀ (outcome : String → Option PricePayload) (datepairs trace : List String),
      datepairs ≠ [] → trace.Perm datepairs →
      ∃ flights,
        handleFlightsForDatepairs outcome datepairs trace = some (200, flights) ∧
          flights.length = datepairs.dedup.length := by
  intro o pairs trace hne hperm
  have htne : trace ≠ [] := by
    intro h
    subst h
    exact hne hperm.symm.eq_nil
  have hres : (runScan o pairs trace).resolved = some (runScan o pairs trace).flights :=
    foldl_settle_resolved_last o pairs.length trace initScan rfl
      (by simp [initScan, hperm.length_eq]) htne
  refine ⟨(runScan o pairs trace).flights, ?_, ?_⟩
  · unfold handleFlightsForDatepairs
    rw [hres]
  · have hfl : (runScan o pairs trace).flights =
        trace.foldl (fun m d => jsObjectSet m d (expectedResult o d)) initScan.flights :=
      foldl_settle_flights o pairs.length trace initScan
    have hnodup : (mapKeys (runScan o pairs trace).flights).Nodup := by
      rw [hfl]
      exact mapKeys_writeFold_nodup o trace initScan.flights (by simp [mapKeys, initScan])
    have hmem : ∀ a, a ∈ mapKeys (runScan o pairs trace).flights ↔ a ∈ pairs.dedup := by
      intro a
      rw [hfl, mapKeys_writeFold_mem o trace initScan.flights a]
      simp [mapKeys, initScan, List.mem_dedup, hperm.mem_iff]
    have hkeys : (mapKeys (runScan o pairs trace).flights).Perm pairs.dedup :=
      (List.perm_ext_iff_of_nodup hnodup (List.nodup_dedup pairs)).mpr hmem
    have hlen := hkeys.length_eq
    simpa [mapKeys] using hlen

/-- C9 (witness): `pricesForDatepairs_entry_count` on a three-element
input list containing a repeated pair (two distinct pairs). -/
theorem pricesForDatepairs_entry_count_witness :
    ∃ flights,
      handleFlightsForDatepairs (fun _ => none)
          ["2024-06-10>2024-06-17", "2024-06-10>2024-06-17", "2024-06-11>2024-06-18"]
          ["2024-06-10>2024-06-17", "2024-06-11>2024-06-18", "2024-06-10>2024-06-17"] =
        some (200, flights) ∧
        flights.length =
          (["2024-06-10>2024-06-17", "2024-06-10>2024-06-17", "2024-06-11>2024-06-18"] :
            List String).dedup.length :=
  pricesForDatepairs_entry_count _ _ _ (by decide) (by decide)

/-- C8: for every parseable pivot pair, the generated datepair list is the
image of the 7 × 7 Cartesian product of the day offsets `-3..3`, each
offset pair applied independently to the two pivots and serialized as
`yyyy-MM-dd>yyyy-MM-dd`; for the pivots 2024-06-10 / 2024-06-17 the list
has exactly 49 entries, all distinct, and contains the pivot pair
`2024-06-10>2024-06-17`. -/
theorem generateCalendarDatepairs_product :
    (∀ (dStr rStr : String) (dep ret : Nat × Nat × Nat),
        parseYmd dStr = some dep → parseYmd rStr = some ret →
        generateCalendarDatepairs dStr rStr =
          some ((offsets ×ˢ offsets).map (fun ij =>
            addDaysFormat dep ij.1 ++ ">" ++ addDaysFormat ret ij.2))) ∧
    ((generateCalendarDatepairs "2024-06-10" "2024-06-17").getD []).length = 49 ∧
    ((generateCalendarDatepairs "2024-06-10" "2024-06-17").getD []).Nodup ∧
    "2024-06-10>2024-06-17" ∈ (generateCalendarDatepairs "2024-06-10" "2024-06-17").getD [] := by
  refine ⟨?_, by decide, by decide, by decide⟩
  intro dStr rStr dep ret hdep hret
  unfold generateCalendarDatepairs
  rw [hdep, hret]
  rfl

/-- C8 (witness): `generateCalendarDatepairs_product` at the spec's pivot
dates 2024-06-10 / 2024-06-17. -/
theorem generateCalendarDatepairs_product_witness :
    generateCalendarDatepairs "2024-06-10" "2024-06-17" =
      some ((offsets ×ˢ offsets).map (fun ij =>
        addDaysFormat (2024, 6, 10) ij.1 ++ ">" ++ addDaysFormat (2024, 6, 17) ij.2)) :=
  generateCalendarDatepairs_product.1 "2024-06-10" "2024-06-17" (2024, 6, 10) (2024, 6, 17)
    (by decide) (by decide)
